import Mathlib

/-!
Verification of `generate_test_sac.py` (Artorize CDN test-fixture generator).

The script packs two int16 arrays into a small binary container ("SAC"):
a header `struct.pack('<4sBBBBIIII', magic, flags, dtype, count, reserved,
len_a, len_b, width, height)` followed by the raw little-endian int16 bytes
of the two arrays.  We embed the encoder, the three pattern generators and
the entry point as Lean functions, with machine integers modelled as
`Nat`/`Int` plus explicit reductions modulo powers of two, and fallible
steps (the two `assert`s, `struct.pack` field-range checks) as `Except`.
-/

deriving instance DecidableEq for Except

namespace SacGen

/-- Magic tag `SAC_MAGIC = b"SAC1"` — the four ASCII bytes of the magic tag. -/
def SAC_MAGIC : List Nat := [0x53, 0x41, 0x43, 0x31]

/-- Dtype code `DTYPE_INT16 = 1` — dtype code for signed 16-bit integers. -/
def DTYPE_INT16 : Nat := 1

/-- Range of a `uint32` field of `struct.pack('<I', ·)`. -/
def U32 : Nat := 4294967296

/-- Element coercion of `np.asarray(x, dtype=np.int16)`: wrap an integer into
the signed 16-bit range `[-32768, 32767]` (two's-complement truncation). -/
def toI16 (v : Int) : Int := (v + 32768) % 65536 - 32768

/-- The four little-endian bytes `struct.pack('<I', n)` of a `uint32`. -/
def le32 (n : Nat) : List Nat :=
  [n % 256, n / 256 % 256, n / 65536 % 256, n / 16777216 % 256]

/-- The two little-endian bytes of one int16 element as laid out by
`ndarray.tobytes` (two's complement). `v` is expected in int16 range. -/
def i16le (v : Int) : List Nat :=
  [(v % 65536).toNat % 256, (v % 65536).toNat / 256]

/-- Byte serialisation `a.tobytes(order='C')` for an int16 array given as its row-major
element list. -/
def arrBytes (l : List Int) : List Nat := l.flatMap i16le

/-- Failure modes of `build_sac`: the two `assert` statements, and
`struct.error` when a header field does not fit in its `uint32` slot. -/
inductive SacError where
  | assertLenA : SacError
  | assertLenB : SacError
  | packRange : SacError
deriving DecidableEq

/-- Whether a `SacError` is one of the two `assert` failures (as opposed to
a `struct.pack` range error). -/
def SacError.isAssert : SacError → Bool
  | .assertLenA => true
  | .assertLenB => true
  | .packRange => false

/-- The byte string `header + a.tobytes() + b.tobytes()` produced on the
success path of `build_sac` (arguments already coerced to int16). -/
def sacBytesRaw (a' b' : List Int) (width height : Nat) : List Nat :=
  SAC_MAGIC ++ [0, DTYPE_INT16, 2, 0] ++
    le32 a'.length ++ le32 b'.length ++ le32 width ++ le32 height ++
    arrBytes a' ++ arrBytes b'

/-- The 24 header bytes of `sacBytesRaw` (everything before the payload). -/
def hdr24 (a' b' : List Int) (w h : Nat) : List Nat :=
  SAC_MAGIC ++ [0, DTYPE_INT16, 2, 0] ++
    le32 a'.length ++ le32 b'.length ++ le32 w ++ le32 h

/-- The `struct.pack` step: checks each `I` field fits in 32 bits (otherwise
`struct.error`), then emits the header and the two raw arrays. -/
def sacPack (a' b' : List Int) (width height : Nat) : Except SacError (List Nat) :=
  if a'.length < U32 ∧ b'.length < U32 ∧ width < U32 ∧ height < U32 then
    .ok (sacBytesRaw a' b' width height)
  else .error .packRange

/-- Encoder `build_sac(a, b, width=0, height=0)`: coerce both arrays to int16,
check the two asserts when both `width` and `height` are non-zero
(Python truthiness of `if width and height:`), then pack. -/
def build_sac (a b : List Int) (width : Nat := 0) (height : Nat := 0) :
    Except SacError (List Nat) :=
  let a' := a.map toI16
  let b' := b.map toI16
  if width ≠ 0 ∧ height ≠ 0 then
    if a'.length ≠ width * height then .error .assertLenA
    else if b'.length ≠ width * height then .error .assertLenB
    else sacPack a' b' width height
  else sacPack a' b' width height

/-! ## Pattern generators

Each generator produces two `height × width` matrices; in `main` they are
flattened row-major (`.ravel()`) before being handed to `build_sac`.  We
represent a matrix directly by its row-major flattening: index
`i = y*width + x` holds the value at pixel `(x, y)`. -/

/-- Row-major flattening of the `height × width` matrix whose value at
pixel `(x, y)` is `f x y`. -/
def ravel (width height : Nat) (f : Nat → Nat → Int) : List Int :=
  (List.range (height * width)).map (fun i => f (i % width) (i / width))

/-- Truncation toward zero of a rational, as numpy's `.astype(np.int16)`
truncates its float input (the fractional part is discarded). -/
def truncQ (q : ℚ) : Int := if 0 ≤ q then ⌊q⌋ else ⌈q⌉

/-- Truncation toward zero of a real number. -/
noncomputable def truncR (r : ℝ) : Int := if 0 ≤ r then ⌊r⌋ else ⌈r⌉

/-- Checkerboard value before the int16 cast:
`(x // square_size + y // square_size) % 2 * 1000`. -/
def checker_raw (square_size x y : Nat) : Nat :=
  (x / square_size + y / square_size) % 2 * 1000

/-- One checkerboard pixel as stored in the array (after
`.astype(np.int16)`). -/
def checker_val (square_size : Nat) (x y : Nat) : Int :=
  toI16 (checker_raw square_size x y)

/-- Generator `generate_checkerboard_mask(width, height, square_size=50)`: both
returned arrays are the same checkerboard. -/
def generate_checkerboard_mask (width height : Nat) (square_size : Nat := 50) :
    List Int × List Int :=
  let checker := ravel width height (checker_val square_size)
  (checker, checker)

/-- The gradient ramp before the int16 cast: `(i / n) * 2000 - 1000` in
exact rational arithmetic (the source computes it in float; array A uses
`i = x, n = width`, array B uses `i = y, n = height`). -/
def ramp_raw (n i : Nat) : ℚ := (i : ℚ) / (n : ℚ) * 2000 - 1000

/-- One pixel of gradient array A (after `.astype(np.int16)`): the
horizontal ramp, depends on `x` only. -/
def gradA_val (width : Nat) (x _y : Nat) : Int := toI16 (truncQ (ramp_raw width x))

/-- One pixel of gradient array B (after `.astype(np.int16)`): the
vertical ramp, depends on `y` only. -/
def gradB_val (height : Nat) (_x y : Nat) : Int := toI16 (truncQ (ramp_raw height y))

/-- Generator `generate_gradient_mask(width, height)`: A is the horizontal ramp, B
the vertical ramp. -/
def generate_gradient_mask (width height : Nat) : List Int × List Int :=
  (ravel width height (gradA_val width), ravel width height (gradB_val height))

/-- Radial value before the int16 cast:
`(1 - dist/max_dist) * intensity` with `dist` the Euclidean distance of
`(x, y)` from the centre `(width/2, height/2)` and `max_dist` the distance
from the centre to the origin corner.  The float arithmetic of the source
is modelled by exact real arithmetic. -/
noncomputable def radial_raw (width height : Nat) (intensity : ℚ) (x y : Nat) : ℝ :=
  let cx : ℝ := (width : ℝ) / 2
  let cy : ℝ := (height : ℝ) / 2
  let dist : ℝ := Real.sqrt (((x : ℝ) - cx) ^ 2 + ((y : ℝ) - cy) ^ 2)
  let max_dist : ℝ := Real.sqrt (cx ^ 2 + cy ^ 2)
  (1 - dist / max_dist) * (intensity : ℚ)

/-- One radial-mask pixel as stored in the array (after
`.astype(np.int16)`). -/
noncomputable def radial_val (width height : Nat) (intensity : ℚ) (x y : Nat) : Int :=
  toI16 (truncR (radial_raw width height intensity x y))

/-- Generator `generate_radial_mask(width, height, intensity=1000.0)`: both returned
arrays are the same radial pattern. -/
noncomputable def generate_radial_mask (width height : Nat) (intensity : ℚ := 1000) :
    List Int × List Int :=
  let mask_intensity := ravel width height (radial_val width height intensity)
  (mask_intensity, mask_intensity)

/-! ## Reference decoder (C3)

Built from the spec's description of the round-trip check: read the two
length fields from the header, then read that many little-endian signed
16-bit values from the bytes following the 24-byte header. -/

/-- Read the unsigned 32-bit little-endian field at byte offset `off`. -/
def readLE32 (bs : List Nat) (off : Nat) : Nat :=
  bs.getD off 0 + 256 * bs.getD (off + 1) 0 +
    65536 * bs.getD (off + 2) 0 + 16777216 * bs.getD (off + 3) 0

/-- Read the signed 16-bit little-endian value at byte offset `off`. -/
def readI16 (bs : List Nat) (off : Nat) : Int :=
  let u := bs.getD off 0 + 256 * bs.getD (off + 1) 0
  if u < 32768 then (u : Int) else (u : Int) - 65536

/-- Reference decoder: recover the two arrays of a SAC byte string from
its header's length fields and the payload after the header. -/
def decodeSac (bs : List Nat) : List Int × List Int :=
  let la := readLE32 bs 8
  let lb := readLE32 bs 12
  ((List.range la).map fun i => readI16 bs (24 + 2 * i),
   (List.range lb).map fun i => readI16 bs (24 + 2 * la + 2 * i))

/-! ## Entry point (`main`)

`main` generates the three patterns at 400×300, encodes each and writes
`test_mask_<name>.sac`, then tries to save a PNG via PIL; an `ImportError`
there is caught, a skip message printed, and the run continues.  We model
the observable effects — files written and progress lines printed — as
data; the PNG's encoded content comes from the external image library
(out of scope per the spec's non-goals), so the image write is recorded by
file name only.  An uncaught `assert`/`struct.error` aborts the run, which
the model reflects by propagating the `SacError`. -/

/-- Observable effects of one run of `main`: the SAC files written (name
and content), the image files written (name), and the lines printed. -/
structure MainResult where
  sacWrites : List (String × List Nat)
  imageWrites : List String
  messages : List String
deriving DecidableEq

/-- The line printed when the PIL import fails. -/
def pilSkipMsg : String := "PIL not available, skipping test image generation"

/-- Sequencing of a fallible step in `main`: an uncaught
`assert`/`struct.error` aborts the run, otherwise execution continues with
the produced bytes. -/
def withOk (x : Except SacError (List Nat))
    (f : List Nat → Except SacError MainResult) : Except SacError MainResult :=
  match x with
  | .error e => .error e
  | .ok v => f v

/-- The body of `main()`, with the test dimensions as parameters and
parametrised by whether the optional PIL dependency can be imported. -/
noncomputable def mainRunAt (width height : Nat) (pilAvailable : Bool) :
    Except SacError MainResult :=
  let radial := generate_radial_mask width height
  let checkerboard := generate_checkerboard_mask width height
  let gradient := generate_gradient_mask width height
  withOk (build_sac radial.1 radial.2 width height) fun sacRadial =>
  withOk (build_sac checkerboard.1 checkerboard.2 width height) fun sacChecker =>
  withOk (build_sac gradient.1 gradient.2 width height) fun sacGradient =>
    .ok { sacWrites := [("test_mask_radial.sac", sacRadial),
                        ("test_mask_checkerboard.sac", sacChecker),
                        ("test_mask_gradient.sac", sacGradient)],
          imageWrites := if pilAvailable then ["test_image.png"] else [],
          messages := ["Generating test SAC files...", "Generating test image..."] ++
            (if pilAvailable then [] else [pilSkipMsg]) ++
            ["Test files ready in ./test_data/"] }

/-- Entry point `main()`: the fixed reference run at 400×300. -/
noncomputable def mainRun (pilAvailable : Bool) : Except SacError MainResult :=
  mainRunAt 400 300 pilAvailable

/-! ## Supporting lemmas -/

theorem toI16_range (v : Int) : -32768 ≤ toI16 v ∧ toI16 v < 32768 := by
  unfold toI16; omega

theorem toI16_eq_self {v : Int} (h1 : -32768 ≤ v) (h2 : v < 32768) : toI16 v = v := by
  unfold toI16; omega

theorem arrBytes_nil : arrBytes [] = [] := rfl

theorem arrBytes_cons (v : Int) (l : List Int) :
    arrBytes (v :: l) = i16le v ++ arrBytes l := rfl

theorem arrBytes_length (l : List Int) : (arrBytes l).length = 2 * l.length := by
  induction l with
  | nil => rfl
  | cons v t ih => simp [arrBytes_cons, i16le, ih]; omega

theorem le32_length (n : Nat) : (le32 n).length = 4 := rfl

theorem sacBytesRaw_length (a' b' : List Int) (w h : Nat) :
    (sacBytesRaw a' b' w h).length = 24 + 2 * a'.length + 2 * b'.length := by
  simp [sacBytesRaw, SAC_MAGIC, le32_length, arrBytes_length]
  omega

theorem build_sac_eq_ok {a b : List Int} {w h : Nat} {out : List Nat}
    (hout : build_sac a b w h = .ok out) :
    out = sacBytesRaw (a.map toI16) (b.map toI16) w h := by
  simp only [build_sac, sacPack] at hout
  repeat' split at hout
  all_goals simp_all

theorem build_sac_ok_of {a b : List Int} {w h : Nat}
    (hla : a.length = w * h) (hlb : b.length = w * h)
    (hwh : w * h < U32) (hw : w < U32) (hh : h < U32) :
    build_sac a b w h = .ok (sacBytesRaw (a.map toI16) (b.map toI16) w h) := by
  have ha' : (a.map toI16).length = w * h := by simpa using hla
  have hb' : (b.map toI16).length = w * h := by simpa using hlb
  simp only [build_sac, sacPack]
  simp [ha', hb', hwh, hw, hh]

/-- Pixel access into a raveled matrix: index `y*width + x` holds the
value at pixel `(x, y)`. -/
theorem ravel_getD (w h : Nat) (f : Nat → Nat → Int) {x y : Nat}
    (hx : x < w) (hy : y < h) :
    (ravel w h f).getD (y * w + x) 0 = f x y := by
  have hlt : y * w + x < h * w := by
    calc y * w + x < y * w + w := by omega
    _ = (y + 1) * w := by ring
    _ ≤ h * w := Nat.mul_le_mul_right w hy
  unfold ravel
  rw [List.getD_eq_getElem _ _ (by simpa using hlt)]
  simp only [List.getElem_map, List.getElem_range]
  congr 1
  · rw [Nat.mul_comm y w, Nat.mul_add_mod]
    exact Nat.mod_eq_of_lt hx
  · rw [Nat.mul_comm y w, Nat.mul_add_div (by omega), Nat.div_eq_of_lt hx]
    omega

theorem ravel_length (w h : Nat) (f : Nat → Nat → Int) :
    (ravel w h f).length = h * w := by
  simp [ravel]

theorem build_sac_ok_bounds {a b : List Int} {w h : Nat} {o : List Nat}
    (hout : build_sac a b w h = .ok o) :
    a.length < U32 ∧ b.length < U32 ∧ w < U32 ∧ h < U32 := by
  simp only [build_sac, sacPack] at hout
  repeat' split at hout
  all_goals simp_all

theorem readLE32_sac_8 (a' b' : List Int) (w h : Nat) (hb : a'.length < U32) :
    readLE32 (sacBytesRaw a' b' w h) 8 = a'.length := by
  have hb' : a'.length < 4294967296 := hb
  show a'.length % 256 + 256 * (a'.length / 256 % 256) +
      65536 * (a'.length / 65536 % 256) +
      16777216 * (a'.length / 16777216 % 256) = a'.length
  omega

theorem readLE32_sac_12 (a' b' : List Int) (w h : Nat) (hb : b'.length < U32) :
    readLE32 (sacBytesRaw a' b' w h) 12 = b'.length := by
  have hb' : b'.length < 4294967296 := hb
  show b'.length % 256 + 256 * (b'.length / 256 % 256) +
      65536 * (b'.length / 65536 % 256) +
      16777216 * (b'.length / 16777216 % 256) = b'.length
  omega

theorem readLE32_sac_16 (a' b' : List Int) (w h : Nat) (hb : w < U32) :
    readLE32 (sacBytesRaw a' b' w h) 16 = w := by
  have hb' : w < 4294967296 := hb
  show w % 256 + 256 * (w / 256 % 256) + 65536 * (w / 65536 % 256) +
      16777216 * (w / 16777216 % 256) = w
  omega

theorem readLE32_sac_20 (a' b' : List Int) (w h : Nat) (hb : h < U32) :
    readLE32 (sacBytesRaw a' b' w h) 20 = h := by
  have hb' : h < 4294967296 := hb
  show h % 256 + 256 * (h / 256 % 256) + 65536 * (h / 65536 % 256) +
      16777216 * (h / 16777216 % 256) = h
  omega

theorem build_sac_assertA {a b : List Int} {w h : Nat}
    (hw : w ≠ 0) (hh : h ≠ 0) (hla : a.length ≠ w * h) :
    build_sac a b w h = .error .assertLenA := by
  simp [build_sac, hw, hh, hla]

theorem build_sac_assertB {a b : List Int} {w h : Nat}
    (hw : w ≠ 0) (hh : h ≠ 0) (hla : a.length = w * h) (hlb : b.length ≠ w * h) :
    build_sac a b w h = .error .assertLenB := by
  simp [build_sac, hw, hh, hla, hlb]

theorem hdr24_length (a' b' : List Int) (w h : Nat) :
    (hdr24 a' b' w h).length = 24 := by
  simp [hdr24, SAC_MAGIC, le32]

theorem sacBytesRaw_split (a' b' : List Int) (w h : Nat) :
    sacBytesRaw a' b' w h = hdr24 a' b' w h ++ (arrBytes a' ++ arrBytes b') := by
  simp [sacBytesRaw, hdr24, List.append_assoc]

theorem getD_append_shift (p L : List Nat) (n : Nat) (d : Nat) :
    (p ++ L).getD (p.length + n) d = L.getD n d := by
  rw [List.getD_append_right _ _ _ _ (Nat.le_add_right _ _)]
  congr 1
  omega

theorem readI16_append (p L : List Nat) (n : Nat) :
    readI16 (p ++ L) (p.length + n) = readI16 L n := by
  unfold readI16
  rw [getD_append_shift, show p.length + n + 1 = p.length + (n + 1) by omega,
    getD_append_shift]

theorem readI16_arrBytes (l : List Int) (rest : List Nat)
    (hl : ∀ v ∈ l, -32768 ≤ v ∧ v < 32768) :
    ∀ i < l.length, readI16 (arrBytes l ++ rest) (2 * i) = l.getD i 0 := by
  induction l generalizing rest with
  | nil => intro i hi; simp at hi
  | cons v t ih =>
    intro i hi
    have hv := hl v (List.mem_cons_self v t)
    match i with
    | 0 =>
      show readI16 ((v % 65536).toNat % 256 :: ((v % 65536).toNat / 256 ::
        (arrBytes t ++ rest))) 0 = v
      have h0 : (0 : Int) ≤ v % 65536 := Int.emod_nonneg v (by omega)
      have h1 : v % 65536 < 65536 := Int.emod_lt_of_pos v (by omega)
      have h2 : ((v % 65536).toNat : Int) = v % 65536 := Int.toNat_of_nonneg h0
      unfold readI16
      simp only [List.getD_cons_zero, List.getD_cons_succ]
      set u := (v % 65536).toNat with hu
      have h3 : u % 256 + 256 * (u / 256) = u := by omega
      rw [h3]
      split
      · omega
      · omega
    | i' + 1 =>
      have : readI16 (arrBytes (v :: t) ++ rest) (2 * (i' + 1)) =
          readI16 (arrBytes t ++ rest) (2 * i') := rfl
      rw [this]
      exact ih rest (fun x hx => hl x (List.mem_cons_of_mem v hx)) i' (by
        simpa using Nat.lt_of_succ_lt_succ hi)

/-! ## Claims -/

/-- Claim C10 (confirmed).  Whenever `build_sac` returns a byte string at
all, its length is `24 + 2*len(A) + 2*len(B)`: the packed header
`'<4sBBBBIIII'` occupies 24 bytes and each element two bytes. -/
theorem c10_output_length {a b : List Int} {w h : Nat} {o : List Nat}
    (hout : build_sac a b w h = .ok o) :
    o.length = 24 + 2 * a.length + 2 * b.length := by
  rw [build_sac_eq_ok hout, sacBytesRaw_length]
  simp

theorem c10_output_length_witness :
    build_sac [0] [0] 1 1 =
      .ok [0x53, 0x41, 0x43, 0x31, 0, 1, 2, 0,
           1, 0, 0, 0, 1, 0, 0, 0, 1, 0, 0, 0, 1, 0, 0, 0,
           0, 0, 0, 0] ∧
    ([0x53, 0x41, 0x43, 0x31, 0, 1, 2, 0,
      1, 0, 0, 0, 1, 0, 0, 0, 1, 0, 0, 0, 1, 0, 0, 0,
      0, 0, 0, 0] : List Nat).length =
        24 + 2 * [(0 : Int)].length + 2 * [(0 : Int)].length :=
  ⟨by decide, c10_output_length (a := [0]) (b := [0]) (w := 1) (h := 1) (by decide)⟩

/-- Claim C2 (confirmed).  Every byte string `build_sac` returns is exactly:
the four ASCII bytes of `"SAC1"` (0x53 0x41 0x43 0x31), flags byte 0,
dtype-code byte 1, array-count byte 2, reserved byte 0, the four
little-endian `uint32` fields `len(A)`, `len(B)`, `width`, `height`, then
the little-endian int16 elements of A followed by those of B — nothing
else: no padding, compression, checksum or trailer. -/
theorem c2_header_layout {a b : List Int} {w h : Nat} {o : List Nat}
    (hout : build_sac a b w h = .ok o) :
    o = [0x53, 0x41, 0x43, 0x31, 0, 1, 2, 0] ++
        le32 a.length ++ le32 b.length ++ le32 w ++ le32 h ++
        arrBytes (a.map toI16) ++ arrBytes (b.map toI16) := by
  rw [build_sac_eq_ok hout]
  simp [sacBytesRaw, SAC_MAGIC, DTYPE_INT16]

theorem c2_header_layout_witness :
    build_sac [-1, 300] [5] 0 7 =
      .ok [0x53, 0x41, 0x43, 0x31, 0, 1, 2, 0,
           2, 0, 0, 0, 1, 0, 0, 0, 0, 0, 0, 0, 7, 0, 0, 0,
           255, 255, 44, 1, 5, 0] ∧
    ([0x53, 0x41, 0x43, 0x31, 0, 1, 2, 0,
      2, 0, 0, 0, 1, 0, 0, 0, 0, 0, 0, 0, 7, 0, 0, 0,
      255, 255, 44, 1, 5, 0] : List Nat) =
      [0x53, 0x41, 0x43, 0x31, 0, 1, 2, 0] ++
        le32 [(-1 : Int), 300].length ++ le32 [(5 : Int)].length ++
        le32 0 ++ le32 7 ++
        arrBytes ([(-1 : Int), 300].map toI16) ++ arrBytes ([(5 : Int)].map toI16) :=
  ⟨by decide,
   c2_header_layout (a := [-1, 300]) (b := [5]) (w := 0) (h := 7) (by decide)⟩

/-- Claim C4 (confirmed).  With non-zero `width` and `height` (all header
fields in `uint32` range), `build_sac` fails on an `assert` exactly when
one of the two array lengths differs from `width*height`; when both equal
`width*height` it returns a byte string. -/
theorem c4_assert_iff {a b : List Int} {w h : Nat}
    (hw : w ≠ 0) (hh : h ≠ 0) (hwh : w * h < U32) (hwb : w < U32) (hhb : h < U32) :
    ((∃ e, build_sac a b w h = .error e ∧ e.isAssert = true) ↔
      (a.length ≠ w * h ∨ b.length ≠ w * h)) ∧
    (a.length = w * h → b.length = w * h → ∃ o, build_sac a b w h = .ok o) := by
  have hok : a.length = w * h → b.length = w * h →
      build_sac a b w h = .ok (sacBytesRaw (a.map toI16) (b.map toI16) w h) :=
    fun hla hlb => build_sac_ok_of hla hlb hwh hwb hhb
  refine ⟨⟨fun ⟨e, he, _⟩ => ?_, fun hmm => ?_⟩, fun hla hlb => ⟨_, hok hla hlb⟩⟩
  · by_contra hcon
    push_neg at hcon
    rw [hok hcon.1 hcon.2] at he
    exact absurd he (by simp)
  · rcases Decidable.em (a.length = w * h) with hla | hla
    · exact ⟨.assertLenB, build_sac_assertB hw hh hla (hmm.resolve_left (by simp [hla])),
        rfl⟩
    · exact ⟨.assertLenA, build_sac_assertA hw hh hla, rfl⟩

theorem c4_assert_iff_witness :
    ((∃ e, build_sac [0, 0, 0] [0, 0, 0, 0, 0, 0] 2 3 = .error e ∧
        e.isAssert = true) ↔
      ([(0 : Int), 0, 0].length ≠ 2 * 3 ∨
        [(0 : Int), 0, 0, 0, 0, 0].length ≠ 2 * 3)) ∧
    ([(0 : Int), 0, 0].length = 2 * 3 → [(0 : Int), 0, 0, 0, 0, 0].length = 2 * 3 →
      ∃ o, build_sac [0, 0, 0] [0, 0, 0, 0, 0, 0] 2 3 = .ok o) :=
  c4_assert_iff (a := [0, 0, 0]) (b := [0, 0, 0, 0, 0, 0]) (w := 2) (h := 3)
    (by decide) (by decide) (by decide) (by decide) (by decide)

/-- Claim C9 (confirmed).  When `width` or `height` is zero (in particular
with the defaults `width=0, height=0`), `build_sac` performs no length
check: it succeeds for arrays of any lengths (any `uint32`-representable
sizes), even mutually different ones, and still stores the supplied
`width` and `height` in the header's third and fourth length/dimension
fields. -/
theorem c9_no_check_when_zero {a b : List Int} {w h : Nat}
    (hz : w = 0 ∨ h = 0)
    (hla : a.length < U32) (hlb : b.length < U32) (hwb : w < U32) (hhb : h < U32) :
    ∃ o, build_sac a b w h = .ok o ∧ readLE32 o 16 = w ∧ readLE32 o 20 = h := by
  have hcond : ¬(w ≠ 0 ∧ h ≠ 0) := by tauto
  have ha' : (a.map toI16).length < U32 := by simpa using hla
  have hb' : (b.map toI16).length < U32 := by simpa using hlb
  refine ⟨sacBytesRaw (a.map toI16) (b.map toI16) w h, ?_,
    readLE32_sac_16 _ _ _ _ hwb, readLE32_sac_20 _ _ _ _ hhb⟩
  simp only [build_sac, sacPack]
  simp [hcond, ha', hb', hwb, hhb]
  exact ⟨hla, hlb⟩

theorem c9_no_check_when_zero_witness :
    ∃ o, build_sac [0] [0, 0, 0] 0 7 = .ok o ∧
      readLE32 o 16 = 0 ∧ readLE32 o 20 = 7 :=
  c9_no_check_when_zero (a := [0]) (b := [0, 0, 0]) (w := 0) (h := 7)
    (by decide) (by decide) (by decide) (by decide) (by decide)

/-- Claim C3 (confirmed).  Round-trip: on any byte string `build_sac`
produces, the reference decoder — read the two header length fields, then
that many little-endian int16 values after the 24-byte header — returns
exactly the two input arrays after their int16 coercion; no data loss. -/
theorem c3_roundtrip {a b : List Int} {w h : Nat} {o : List Nat}
    (hout : build_sac a b w h = .ok o) :
    decodeSac o = (a.map toI16, b.map toI16) := by
  obtain ⟨hla, hlb, hwb, hhb⟩ := build_sac_ok_bounds hout
  have ha' : (a.map toI16).length < U32 := by simpa using hla
  have hb' : (b.map toI16).length < U32 := by simpa using hlb
  have hmema : ∀ v ∈ a.map toI16, -32768 ≤ v ∧ v < 32768 := by
    intro v hv
    obtain ⟨x, _, rfl⟩ := List.mem_map.mp hv
    exact toI16_range x
  have hmemb : ∀ v ∈ b.map toI16, -32768 ≤ v ∧ v < 32768 := by
    intro v hv
    obtain ⟨x, _, rfl⟩ := List.mem_map.mp hv
    exact toI16_range x
  rw [build_sac_eq_ok hout]
  simp only [decodeSac]
  rw [readLE32_sac_8 _ _ _ _ ha', readLE32_sac_12 _ _ _ _ hb']
  refine Prod.ext ?_ ?_
  · apply List.ext_getElem
    · simp
    · intro i h1 h2
      simp only [List.getElem_map, List.getElem_range]
      rw [sacBytesRaw_split,
        show (24 : Nat) + 2 * i =
          (hdr24 (a.map toI16) (b.map toI16) w h).length + 2 * i by
            rw [hdr24_length],
        readI16_append]
      have hi : i < (List.map toI16 a).length := by simpa using h2
      rw [readI16_arrBytes _ _ hmema i hi, List.getD_eq_getElem _ _ hi]
      simp
  · apply List.ext_getElem
    · simp
    · intro i h1 h2
      simp only [List.getElem_map, List.getElem_range]
      rw [sacBytesRaw_split,
        show (24 : Nat) + 2 * (a.map toI16).length + 2 * i =
          (hdr24 (a.map toI16) (b.map toI16) w h).length +
            ((arrBytes (a.map toI16)).length + 2 * i) by
              rw [hdr24_length, arrBytes_length]; ring,
        readI16_append, readI16_append]
      have hi : i < (List.map toI16 b).length := by simpa using h2
      rw [← List.append_nil (arrBytes (b.map toI16)),
        readI16_arrBytes _ _ hmemb i hi, List.getD_eq_getElem _ _ hi]
      simp

theorem c3_roundtrip_witness :
    decodeSac [0x53, 0x41, 0x43, 0x31, 0, 1, 2, 0,
        2, 0, 0, 0, 1, 0, 0, 0, 0, 0, 0, 0, 7, 0, 0, 0,
        255, 255, 44, 1, 5, 0] =
      ([(-1 : Int), 300].map toI16, [(5 : Int)].map toI16) :=
  c3_roundtrip (a := [-1, 300]) (b := [5]) (w := 0) (h := 7) (by decide)

/-- Claim C1 (counterexample).  The claim's size formula `20 + 2*w*h*2`
is off by four bytes: already at `w = h = 1` the encoder emits 28 bytes,
not `20 + 2*1*1*2 = 24` — the packed header is 24 bytes, not 20. -/
theorem c1_size_counterexample :
    (build_sac [0] [0] 1 1).map List.length = .ok 28 ∧ 28 ≠ 20 + 2 * (1 * 1) * 2 := by
  constructor
  · decide
  · decide

/-- Claim C1 (amended).  For arrays of length `width*height` (widths and
heights in `uint32` range) the output length is `24 + 2*width*height*2`
bytes; in particular at 400×300 with two 120000-element arrays the output
is 480024 bytes, not the 500020 the claim states. -/
theorem c1_size_amended {a b : List Int} {w h : Nat}
    (hla : a.length = w * h) (hlb : b.length = w * h)
    (hwh : w * h < U32) (hw : w < U32) (hh : h < U32) :
    (build_sac a b w h).map List.length = .ok (24 + 2 * (w * h) * 2) := by
  rw [build_sac_ok_of hla hlb hwh hw hh]
  have e : (sacBytesRaw (a.map toI16) (b.map toI16) w h).length =
      24 + 2 * (w * h) * 2 := by
    rw [sacBytesRaw_length]
    simp only [List.length_map, hla, hlb]
    ring
  exact congrArg Except.ok e

theorem c1_size_amended_witness :
    (400 : Nat) * 300 < U32 ∧
      (build_sac (List.replicate 120000 0) (List.replicate 120000 0) 400 300).map
          List.length = .ok 480024 := by
  constructor
  · decide
  · have h := c1_size_amended (a := List.replicate 120000 0)
      (b := List.replicate 120000 0) (w := 400) (h := 300)
      (by simp only [List.length_replicate]) (by simp only [List.length_replicate])
      (by decide) (by decide) (by decide)
    have e : 24 + 2 * (400 * 300) * 2 = 480024 := by decide
    rw [e] at h
    exact h

/-- Claim C5 (confirmed).  The checkerboard: both arrays are the same; the
value at pixel `(x, y)` is `((x // square_size + y // square_size) % 2) *
1000`, hence always 0 or 1000; blocks are in phase, so `(0,0)` and
`(square_size, square_size)` hold the same value 0 while `(square_size, 0)`
holds 1000 (pixels taken inside the image). -/
theorem c5_checkerboard (w h s : Nat) (hs : 0 < s) :
    (generate_checkerboard_mask w h s).1 = (generate_checkerboard_mask w h s).2 ∧
    (∀ x y, x < w → y < h →
      (generate_checkerboard_mask w h s).1.getD (y * w + x) 0 =
        (((x / s + y / s) % 2 : Nat) * 1000 : Int)) ∧
    (∀ x y, x < w → y < h →
      (generate_checkerboard_mask w h s).1.getD (y * w + x) 0 = 0 ∨
      (generate_checkerboard_mask w h s).1.getD (y * w + x) 0 = 1000) ∧
    (s < w → s < h →
      (generate_checkerboard_mask w h s).1.getD (s * w + s) 0 =
        (generate_checkerboard_mask w h s).1.getD 0 0) ∧
    (s < w → 0 < h →
      (generate_checkerboard_mask w h s).1.getD 0 0 = 0 ∧
      (generate_checkerboard_mask w h s).1.getD s 0 = 1000) := by
  have hval : ∀ x y, x < w → y < h →
      (generate_checkerboard_mask w h s).1.getD (y * w + x) 0 =
        (((x / s + y / s) % 2 : Nat) * 1000 : Int) := by
    intro x y hx hy
    show (ravel w h (checker_val s)).getD (y * w + x) 0 = _
    rw [ravel_getD w h _ hx hy]
    unfold checker_val checker_raw
    have hm : (x / s + y / s) % 2 ≤ 1 := by omega
    rw [toI16_eq_self (by push_cast; omega) (by push_cast; omega)]
    push_cast
    ring
  refine ⟨rfl, hval, ?_, ?_, ?_⟩
  · intro x y hx hy
    rw [hval x y hx hy]
    have hm : (x / s + y / s) % 2 = 0 ∨ (x / s + y / s) % 2 = 1 := by omega
    rcases hm with hm | hm <;> rw [hm] <;> simp
  · intro hsw hsh
    have h1 := hval s s hsw hsh
    have h2 := hval 0 0 (by omega) (by omega)
    rw [show (0 : Nat) * w + 0 = 0 by ring] at h2
    rw [h1, h2, Nat.div_self hs]
    simp
  · intro hsw hh
    have h1 := hval s 0 hsw hh
    have h2 := hval 0 0 (by omega) hh
    rw [show (0 : Nat) * w + s = s by ring] at h1
    rw [show (0 : Nat) * w + 0 = 0 by ring] at h2
    rw [h1, h2, Nat.div_self hs]
    norm_num [Nat.zero_div]

theorem c5_checkerboard_witness :
    (0 : Nat) < 1 ∧
    ((generate_checkerboard_mask 3 2 1).1 = (generate_checkerboard_mask 3 2 1).2 ∧
    (∀ x y, x < 3 → y < 2 →
      (generate_checkerboard_mask 3 2 1).1.getD (y * 3 + x) 0 =
        (((x / 1 + y / 1) % 2 : Nat) * 1000 : Int)) ∧
    (∀ x y, x < 3 → y < 2 →
      (generate_checkerboard_mask 3 2 1).1.getD (y * 3 + x) 0 = 0 ∨
      (generate_checkerboard_mask 3 2 1).1.getD (y * 3 + x) 0 = 1000) ∧
    ((1 : Nat) < 3 → (1 : Nat) < 2 →
      (generate_checkerboard_mask 3 2 1).1.getD (1 * 3 + 1) 0 =
        (generate_checkerboard_mask 3 2 1).1.getD 0 0) ∧
    ((1 : Nat) < 3 → (0 : Nat) < 2 →
      (generate_checkerboard_mask 3 2 1).1.getD 0 0 = 0 ∧
      (generate_checkerboard_mask 3 2 1).1.getD 1 0 = 1000)) :=
  ⟨by decide, c5_checkerboard 3 2 1 (by decide)⟩

theorem truncQ_mono {p q : ℚ} (hpq : p ≤ q) : truncQ p ≤ truncQ q := by
  unfold truncQ
  split
  · split
    · exact Int.floor_mono hpq
    · linarith
  · split
    · rename_i hp hq
      have h1 : ⌈p⌉ ≤ (0 : Int) := Int.ceil_le.mpr (by push_cast; linarith [lt_of_not_ge hp])
      have h2 : (0 : Int) ≤ ⌊q⌋ := Int.floor_nonneg.mpr hq
      omega
    · exact Int.ceil_mono hpq

theorem truncQ_nonneg {q : ℚ} (h : 0 ≤ q) : 0 ≤ truncQ q := by
  unfold truncQ
  rw [if_pos h]
  exact Int.floor_nonneg.mpr h

theorem truncQ_lt_top {q : ℚ} (h : q < 1000) : truncQ q < 1000 := by
  unfold truncQ
  split
  · exact Int.floor_lt.mpr (by exact_mod_cast h)
  · rename_i hq
    have h0 : ⌈q⌉ ≤ (0 : Int) := Int.ceil_le.mpr (by push_cast; linarith [lt_of_not_ge hq])
    omega

theorem truncQ_ge_bot {q : ℚ} (h : -1000 ≤ q) : -1000 ≤ truncQ q := by
  unfold truncQ
  split
  · have : (0 : Int) ≤ ⌊q⌋ := Int.floor_nonneg.mpr (by assumption)
    omega
  · have hc := Int.le_ceil q
    exact_mod_cast le_trans h hc

theorem ramp_raw_bounds (n i : Nat) (hn : 0 < n) (hi : i < n) :
    -1000 ≤ ramp_raw n i ∧ ramp_raw n i < 1000 := by
  unfold ramp_raw
  have hn' : (0 : ℚ) < n := by exact_mod_cast hn
  have h0 : (0 : ℚ) ≤ (i : ℚ) / n := by positivity
  have h1 : (i : ℚ) / n < 1 := by
    rw [div_lt_one hn']
    exact_mod_cast hi
  constructor <;> nlinarith

theorem ramp_raw_last_nonneg (n : Nat) (hn : 2 ≤ n) : 0 ≤ ramp_raw n (n - 1) := by
  obtain ⟨k, rfl⟩ : ∃ k, n = k + 2 := ⟨n - 2, by omega⟩
  unfold ramp_raw
  have h2 : (k + 2 - 1 : Nat) = k + 1 := by omega
  rw [h2, sub_nonneg, div_mul_eq_mul_div, le_div_iff₀ (by positivity)]
  push_cast
  nlinarith [Rat.num_nonneg.mpr (show (0 : ℚ) ≤ k from by positivity)]

theorem gradA_getD (w h : Nat) (hw : 0 < w) {x y : Nat} (hx : x < w) (hy : y < h) :
    (generate_gradient_mask w h).1.getD (y * w + x) 0 = truncQ (ramp_raw w x) := by
  show (ravel w h (gradA_val w)).getD (y * w + x) 0 = _
  rw [ravel_getD w h _ hx hy]
  unfold gradA_val
  obtain ⟨hb1, hb2⟩ := ramp_raw_bounds w x hw hx
  exact toI16_eq_self (le_trans (by norm_num) (truncQ_ge_bot hb1))
    (lt_of_lt_of_le (truncQ_lt_top hb2) (by norm_num))

theorem gradB_getD (w h : Nat) (hh : 0 < h) {x y : Nat} (hx : x < w) (hy : y < h) :
    (generate_gradient_mask w h).2.getD (y * w + x) 0 = truncQ (ramp_raw h y) := by
  show (ravel w h (gradB_val h)).getD (y * w + x) 0 = _
  rw [ravel_getD w h _ hx hy]
  unfold gradB_val
  obtain ⟨hb1, hb2⟩ := ramp_raw_bounds h y hh hy
  exact toI16_eq_self (le_trans (by norm_num) (truncQ_ge_bot hb1))
    (lt_of_lt_of_le (truncQ_lt_top hb2) (by norm_num))

theorem truncQ_neg1000 : truncQ (-1000) = -1000 := by
  unfold truncQ
  rw [if_neg (by norm_num)]
  exact_mod_cast Int.ceil_intCast (α := ℚ) (-1000)

theorem ramp_raw_zero (n : Nat) : ramp_raw n 0 = -1000 := by
  unfold ramp_raw
  norm_num

/-- Claim C6 (counterexample).  At `width = height = 1` the two gradient
arrays are identical (both a single pixel of value −1000), against the
claim that A and B are always different. -/
theorem c6_gradient_counterexample :
    (generate_gradient_mask 1 1).1 = (generate_gradient_mask 1 1).2 := rfl

/-- Claim C6 (amended).  For positive `width`, `height`: array A at pixel
`(x, y)` is the int16 truncation of `(x/width)*2000 − 1000` — −1000 at
`x = 0`, monotonically non-decreasing along x, constant along y — array B
is the analogous vertical ramp in y, and the two arrays differ whenever
the image has more than one pixel (at `width = height = 1` they coincide). -/
theorem c6_gradient (w h : Nat) (hw : 0 < w) (hh : 0 < h) :
    (∀ x y, x < w → y < h →
      (generate_gradient_mask w h).1.getD (y * w + x) 0 =
        truncQ ((x : ℚ) / (w : ℚ) * 2000 - 1000)) ∧
    (∀ y, y < h → (generate_gradient_mask w h).1.getD (y * w) 0 = -1000) ∧
    (∀ x x' y, x ≤ x' → x' < w → y < h →
      (generate_gradient_mask w h).1.getD (y * w + x) 0 ≤
        (generate_gradient_mask w h).1.getD (y * w + x') 0) ∧
    (∀ x y y', x < w → y < h → y' < h →
      (generate_gradient_mask w h).1.getD (y * w + x) 0 =
        (generate_gradient_mask w h).1.getD (y' * w + x) 0) ∧
    (∀ x y, x < w → y < h →
      (generate_gradient_mask w h).2.getD (y * w + x) 0 =
        truncQ ((y : ℚ) / (h : ℚ) * 2000 - 1000)) ∧
    (1 < w * h → (generate_gradient_mask w h).1 ≠ (generate_gradient_mask w h).2) := by
  refine ⟨fun x y hx hy => gradA_getD w h hw hx hy, ?_, ?_, ?_,
    fun x y hx hy => gradB_getD w h hh hx hy, ?_⟩
  · intro y hy
    have := gradA_getD w h hw (x := 0) (y := y) hw hy
    rw [Nat.add_zero] at this
    rw [this, show ramp_raw w 0 = -1000 from ramp_raw_zero w, truncQ_neg1000]
  · intro x x' y hxx hx' hy
    rw [gradA_getD w h hw (lt_of_le_of_lt hxx hx') hy, gradA_getD w h hw hx' hy]
    apply truncQ_mono
    unfold ramp_raw
    have hxx' : (x : ℚ) ≤ (x' : ℚ) := by exact_mod_cast hxx
    gcongr
  · intro x y y' hx hy hy'
    rw [gradA_getD w h hw hx hy, gradA_getD w h hw hx hy']
  · intro hwh hcon
    rcases Nat.lt_or_ge 1 w with hw2 | hw1
    · have hA := gradA_getD w h hw (x := w - 1) (y := 0) (by omega) hh
      have hB := gradB_getD w h hh (x := w - 1) (y := 0) (by omega) hh
      rw [hcon] at hA
      rw [hA] at hB
      have h1 : 0 ≤ truncQ (ramp_raw w (w - 1)) :=
        truncQ_nonneg (ramp_raw_last_nonneg w (by omega))
      rw [show ramp_raw h 0 = -1000 from ramp_raw_zero h, truncQ_neg1000] at hB
      omega
    · have hw1' : w = 1 := by omega
      have hh2 : 2 ≤ h := by
        subst hw1'
        omega
      have hA := gradA_getD w h hw (x := 0) (y := h - 1) hw (by omega)
      have hB := gradB_getD w h hh (x := 0) (y := h - 1) hw (by omega)
      rw [hcon] at hA
      rw [hA] at hB
      have h1 : 0 ≤ truncQ (ramp_raw h (h - 1)) :=
        truncQ_nonneg (ramp_raw_last_nonneg h hh2)
      rw [show ramp_raw w 0 = -1000 from ramp_raw_zero w, truncQ_neg1000] at hB
      omega

theorem c6_gradient_witness :
    (generate_gradient_mask 2 1).1.getD 0 0 = -1000 ∧
    (generate_gradient_mask 2 1).1 ≠ (generate_gradient_mask 2 1).2 := by
  have h := c6_gradient 2 1 (by decide) (by decide)
  refine ⟨?_, h.2.2.2.2.2 (by decide)⟩
  have h0 := h.2.1 0 (by decide)
  simpa using h0

theorem truncR_ratCast (q : ℚ) : truncR (q : ℝ) = truncQ q := by
  unfold truncR truncQ
  by_cases h : (0 : ℚ) ≤ q
  · rw [if_pos (by exact_mod_cast h), if_pos h, Rat.floor_cast]
  · rw [if_neg (by exact_mod_cast h), if_neg h, Rat.ceil_cast]

theorem truncQ_intCast (n : Int) : truncQ (n : ℚ) = n := by
  unfold truncQ
  split
  · exact Int.floor_intCast n
  · exact Int.ceil_intCast n

theorem truncR_zero : truncR 0 = 0 := by
  unfold truncR
  rw [if_pos le_rfl]
  exact Int.floor_zero

/-- At the exact centre pixel the distance term vanishes, so the raw
radial value is exactly the intensity (even dimensions). -/
theorem radial_raw_center (w h : Nat) (i : ℚ)
    (hweven : w % 2 = 0) (hheven : h % 2 = 0) :
    radial_raw w h i (w / 2) (h / 2) = (i : ℝ) := by
  obtain ⟨k, rfl⟩ : ∃ k, w = 2 * k := ⟨w / 2, by omega⟩
  obtain ⟨l, rfl⟩ : ∃ l, h = 2 * l := ⟨h / 2, by omega⟩
  simp only [radial_raw]
  rw [show (2 * k : Nat) / 2 = k by omega, show (2 * l : Nat) / 2 = l by omega]
  push_cast
  rw [show ((k : ℝ) - 2 * k / 2) ^ 2 + ((l : ℝ) - 2 * l / 2) ^ 2 = 0 by ring,
    Real.sqrt_zero, zero_div, sub_zero, one_mul]

/-- At 400×300 the corner pixel `(0,0)` sits at exactly the maximal
distance, so the raw radial value is 0 for every intensity. -/
theorem radial_raw_corner (i : ℚ) : radial_raw 400 300 i 0 0 = 0 := by
  simp only [radial_raw]
  push_cast
  rw [show ((0 : ℝ) - 400 / 2) ^ 2 + ((0 : ℝ) - 300 / 2) ^ 2 = 62500 by norm_num,
    show ((400 : ℝ) / 2) ^ 2 + ((300 : ℝ) / 2) ^ 2 = 62500 by norm_num,
    div_self (ne_of_gt (Real.sqrt_pos.mpr (by norm_num)))]
  ring

theorem radial_getD (w h : Nat) (i : ℚ) {x y : Nat} (hx : x < w) (hy : y < h) :
    (generate_radial_mask w h i).1.getD (y * w + x) 0 =
      toI16 (truncR (radial_raw w h i x y)) := by
  show (ravel w h (radial_val w h i)).getD (y * w + x) 0 = _
  rw [ravel_getD w h _ hx hy]
  rfl

/-- Claim C7 (confirmed).  The radial mask: both arrays are identical; at
the exact centre pixel `(width/2, height/2)` (even dimensions) the stored
value is the truncated intensity (intensity within int16 range after
truncation); and at 400×300 the corner `(0,0)` is at exactly the maximal
distance — the raw value is 0 for every intensity — and the stored corner
value is 0. -/
theorem c7_radial (w h : Nat) (i : ℚ) (hw : 0 < w) (hh : 0 < h)
    (hweven : w % 2 = 0) (hheven : h % 2 = 0)
    (hlo : -32768 ≤ truncQ i) (hhi : truncQ i < 32768) :
    (generate_radial_mask w h i).1 = (generate_radial_mask w h i).2 ∧
    (generate_radial_mask w h i).1.getD (h / 2 * w + w / 2) 0 = truncQ i ∧
    (∀ j : ℚ, radial_raw 400 300 j 0 0 = 0) ∧
    (generate_radial_mask 400 300 1000).1.getD 0 0 = 0 := by
  refine ⟨rfl, ?_, radial_raw_corner, ?_⟩
  · rw [radial_getD w h i (by omega) (by omega),
      radial_raw_center w h i hweven hheven, truncR_ratCast]
    exact toI16_eq_self hlo hhi
  · have hc := radial_getD 400 300 1000 (x := 0) (y := 0) (by omega) (by omega)
    rw [radial_raw_corner, truncR_zero] at hc
    rw [show (0 : Nat) * 400 + 0 = 0 from rfl] at hc
    exact hc.trans (by decide)

theorem c7_radial_witness :
    (generate_radial_mask 400 300 1000).1 = (generate_radial_mask 400 300 1000).2 ∧
    (generate_radial_mask 400 300 1000).1.getD (300 / 2 * 400 + 400 / 2) 0 =
      truncQ 1000 ∧
    (∀ j : ℚ, radial_raw 400 300 j 0 0 = 0) ∧
    (generate_radial_mask 400 300 1000).1.getD 0 0 = 0 :=
  c7_radial 400 300 1000 (by decide) (by decide) (by decide) (by decide)
    (by rw [show (1000 : ℚ) = ((1000 : Int) : ℚ) by norm_num, truncQ_intCast]; decide)
    (by rw [show (1000 : ℚ) = ((1000 : Int) : ℚ) by norm_num, truncQ_intCast]; decide)

theorem withOk_ok (v : List Nat) (f : List Nat → Except SacError MainResult) :
    withOk (.ok v) f = f v := rfl

theorem mainRunAt_unfold (w h : Nat) (p : Bool) :
    mainRunAt w h p =
      (withOk (build_sac (generate_radial_mask w h).1
          (generate_radial_mask w h).2 w h) fun sacRadial =>
       withOk (build_sac (generate_checkerboard_mask w h).1
          (generate_checkerboard_mask w h).2 w h) fun sacChecker =>
       withOk (build_sac (generate_gradient_mask w h).1
          (generate_gradient_mask w h).2 w h) fun sacGradient =>
        .ok { sacWrites := [("test_mask_radial.sac", sacRadial),
                            ("test_mask_checkerboard.sac", sacChecker),
                            ("test_mask_gradient.sac", sacGradient)],
              imageWrites := if p then ["test_image.png"] else [],
              messages := ["Generating test SAC files...",
                "Generating test image..."] ++
                (if p then [] else [pilSkipMsg]) ++
                ["Test files ready in ./test_data/"] }) := rfl

theorem mainRun_unfold (p : Bool) : mainRun p = mainRunAt 400 300 p := rfl

theorem generate_radial_length (w h : Nat) (i : ℚ) :
    (generate_radial_mask w h i).1.length = h * w ∧
    (generate_radial_mask w h i).2.length = h * w :=
  ⟨ravel_length w h _, ravel_length w h _⟩

theorem generate_checkerboard_length (w h s : Nat) :
    (generate_checkerboard_mask w h s).1.length = h * w ∧
    (generate_checkerboard_mask w h s).2.length = h * w :=
  ⟨ravel_length w h _, ravel_length w h _⟩

theorem generate_gradient_length (w h : Nat) :
    (generate_gradient_mask w h).1.length = h * w ∧
    (generate_gradient_mask w h).2.length = h * w :=
  ⟨ravel_length w h _, ravel_length w h _⟩

/-- Claim C8 (confirmed).  With PIL absent the run still succeeds, writes
exactly the same three SAC files (same names, same bytes) as with PIL
present, writes no image file, and prints the informational skip line;
with PIL present the same SAC files plus `test_image.png` are written. -/
theorem c8_pil_optional :
    ∃ r s, mainRun false = .ok r ∧ mainRun true = .ok s ∧
      r.sacWrites = s.sacWrites ∧
      r.sacWrites.map Prod.fst =
        ["test_mask_radial.sac", "test_mask_checkerboard.sac",
         "test_mask_gradient.sac"] ∧
      pilSkipMsg ∈ r.messages ∧
      r.imageWrites = [] ∧ s.imageWrites = ["test_image.png"] := by
  have hr := build_sac_ok_of
    (a := (generate_radial_mask 400 300 1000).1)
    (b := (generate_radial_mask 400 300 1000).2) (w := 400) (h := 300)
    (by rw [(generate_radial_length 400 300 1000).1])
    (by rw [(generate_radial_length 400 300 1000).2])
    (by decide) (by decide) (by decide)
  have hc := build_sac_ok_of
    (a := (generate_checkerboard_mask 400 300 50).1)
    (b := (generate_checkerboard_mask 400 300 50).2) (w := 400) (h := 300)
    (by rw [(generate_checkerboard_length 400 300 50).1])
    (by rw [(generate_checkerboard_length 400 300 50).2])
    (by decide) (by decide) (by decide)
  have hg := build_sac_ok_of
    (a := (generate_gradient_mask 400 300).1)
    (b := (generate_gradient_mask 400 300).2) (w := 400) (h := 300)
    (by rw [(generate_gradient_length 400 300).1])
    (by rw [(generate_gradient_length 400 300).2])
    (by decide) (by decide) (by decide)
  have hf : mainRun false = .ok
      { sacWrites :=
          [("test_mask_radial.sac",
            sacBytesRaw ((generate_radial_mask 400 300 1000).1.map toI16)
              ((generate_radial_mask 400 300 1000).2.map toI16) 400 300),
           ("test_mask_checkerboard.sac",
            sacBytesRaw ((generate_checkerboard_mask 400 300 50).1.map toI16)
              ((generate_checkerboard_mask 400 300 50).2.map toI16) 400 300),
           ("test_mask_gradient.sac",
            sacBytesRaw ((generate_gradient_mask 400 300).1.map toI16)
              ((generate_gradient_mask 400 300).2.map toI16) 400 300)],
        imageWrites := [],
        messages := ["Generating test SAC files...", "Generating test image...",
          pilSkipMsg, "Test files ready in ./test_data/"] } := by
    rw [mainRun_unfold, mainRunAt_unfold, hr, withOk_ok, hc, withOk_ok, hg, withOk_ok]
    rfl
  have ht : mainRun true = .ok
      { sacWrites :=
          [("test_mask_radial.sac",
            sacBytesRaw ((generate_radial_mask 400 300 1000).1.map toI16)
              ((generate_radial_mask 400 300 1000).2.map toI16) 400 300),
           ("test_mask_checkerboard.sac",
            sacBytesRaw ((generate_checkerboard_mask 400 300 50).1.map toI16)
              ((generate_checkerboard_mask 400 300 50).2.map toI16) 400 300),
           ("test_mask_gradient.sac",
            sacBytesRaw ((generate_gradient_mask 400 300).1.map toI16)
              ((generate_gradient_mask 400 300).2.map toI16) 400 300)],
        imageWrites := ["test_image.png"],
        messages := ["Generating test SAC files...", "Generating test image...",
          "Test files ready in ./test_data/"] } := by
    rw [mainRun_unfold, mainRunAt_unfold, hr, withOk_ok, hc, withOk_ok, hg, withOk_ok]
    rfl
  exact ⟨_, _, hf, ht, rfl, by simp, by simp, rfl, rfl⟩

end SacGen
